import Mathlib

/-!
Verification of the documentation-aggregation engine of `src/providers.py`:
the per-backend adapters (SkriptLang, Skript Hub, skUnity, Skript-MC) and the
combined orchestrator.  Python functions are shallowly embedded as Lean
functions; the mutable per-adapter state (the SkriptLang corpus cache) is
passed explicitly; network calls are passed in as values (the fetched data);
exceptions are `Option`/`Except` failures.
-/

namespace SkriptDocBot

/-- Modelled from the spec: the `SyntaxType` enumeration of `models.py`
(not part of `src/`): {CONDITION, EFFECT, EXPRESSION, EVENT, CLASSINFO,
STRUCTURE, SECTION, FUNCTION}. -/
inductive SyntaxType where
  | CONDITION
  | EFFECT
  | EXPRESSION
  | EVENT
  | CLASSINFO
  | STRUCTURE
  | SECTION
  | FUNCTION
deriving DecidableEq, Repr

/-- Models the Python enum lookup `SyntaxType[name]`: the member whose name is
exactly `name`, or `none` (a `KeyError` in Python) when there is no member of
that name. -/
def syntaxTypeOfName (name : String) : Option SyntaxType :=
  if name = "CONDITION" then some .CONDITION
  else if name = "EFFECT" then some .EFFECT
  else if name = "EXPRESSION" then some .EXPRESSION
  else if name = "EVENT" then some .EVENT
  else if name = "CLASSINFO" then some .CLASSINFO
  else if name = "STRUCTURE" then some .STRUCTURE
  else if name = "SECTION" then some .SECTION
  else if name = "FUNCTION" then some .FUNCTION
  else none

/-- A reference to a provider instance, as stored in `SyntaxElement.provider`.
`name` is the class-determined `name` property (a constant per provider
class); `token` is the instance-identifying constructor argument (the API
token/key of `SkriptHubDocumentationProvider.__init__` etc., `none` for
`SkriptLangDocumentationProvider`, which takes no argument).  Two distinct
instances of one class (different tokens) have the same `name`. -/
structure ProviderRef where
  name : String
  token : Option String
deriving DecidableEq, Repr

/-- Modelled from the spec: the normalized `SyntaxElement` record of
`models.py` (not part of `src/`), with exactly the fields the adapters of
`src/providers.py` construct.  The derived `detailed_name` key of `models.py`
is not stored; the orchestrator below abstracts it as a key function. -/
structure SyntaxElement where
  id : String
  provider : ProviderRef
  name : String
  description : String
  patterns : List String
  examples : Option (List String)
  required_addon : Option String
  required_addon_version : Option String
  required_minecraft_version : Option String
  type : SyntaxType
  required_plugins : Option (List String)
  return_type : Option String
  event_values : Option (List String)
  cancellable : Option Bool
  link : String
deriving DecidableEq, Repr

/-! ## Combined orchestrator (`CombinedDocumentationProvider.perform_search`)

A member provider's `perform_search` outcome for the query is a value of
`Except Unit (List α)`: `.ok results` when it returned, `.error ()` when it
raised any exception.  `key` abstracts the derived `detailed_name` property
(computed in `models.py`, which is not part of `src/`); every theorem below
holds for an arbitrary key function.  `discovered` models the key set of the
Python dict `discovered_elements` (only membership is ever used). -/

/-- The inner `for result in results` loop of
`CombinedDocumentationProvider.perform_search`: append each result whose key
has not been discovered yet, recording its key. -/
def foldProviderResults (key : α → String) :
    List α → List String × List α → List String × List α
  | [], acc => acc
  | r :: rs, (discovered, elements) =>
    if key r ∈ discovered then
      foldProviderResults key rs (discovered, elements)
    else
      foldProviderResults key rs (key r :: discovered, elements ++ [r])

/-- The outer `for provider in self.providers` loop: before invoking a
provider, stop (Python `break`) once `len(elements) >= MAX_SELECT_OPTION_COUNT`;
a provider that raised (`.error`) is logged and skipped. -/
def foldProviders (key : α → String) (maxCount : Nat) :
    List (Except Unit (List α)) → List String × List α → List String × List α
  | [], acc => acc
  | s :: ss, (discovered, elements) =>
    if maxCount ≤ elements.length then (discovered, elements)
    else
      match s with
      | .error _ => foldProviders key maxCount ss (discovered, elements)
      | .ok results =>
          foldProviders key maxCount ss
            (foldProviderResults key results (discovered, elements))

/-- `CombinedDocumentationProvider.perform_search`: accumulate the members'
results in order with first-claim dedup and the cap check, then return
`elements[: MAX_SELECT_OPTION_COUNT - 1]`.  `maxCount` is
`MAX_SELECT_OPTION_COUNT` (defined in `constants.py`, not part of `src/`; per
the spec it is a fixed positive maximum result count, so the theorems assume
`1 ≤ maxCount`). -/
def performCombinedSearch (key : α → String) (maxCount : Nat)
    (searches : List (Except Unit (List α))) : List α :=
  (foldProviders key maxCount searches ([], [])).2.take (maxCount - 1)

lemma foldProviders_stop (key : α → String) (maxCount : Nat)
    (ss : List (Except Unit (List α))) (acc : List String × List α)
    (h : maxCount ≤ acc.2.length) :
    foldProviders key maxCount ss acc = acc := by
  cases ss with
  | nil => rfl
  | cons s ss =>
    obtain ⟨d, e⟩ := acc
    simp only [foldProviders, if_pos h]

lemma foldProviders_append (key : α → String) (maxCount : Nat)
    (s1 s2 : List (Except Unit (List α))) (acc : List String × List α) :
    foldProviders key maxCount (s1 ++ s2) acc =
      foldProviders key maxCount s2 (foldProviders key maxCount s1 acc) := by
  induction s1 generalizing acc with
  | nil => rfl
  | cons s s1 ih =>
    obtain ⟨d, e⟩ := acc
    by_cases h : maxCount ≤ e.length
    · simp only [List.cons_append, foldProviders, if_pos h]
      rw [foldProviders_stop key maxCount s2 (d, e) h]
    · cases s with
      | error err => simpa only [List.cons_append, foldProviders, if_neg h] using ih _
      | ok results => simpa only [List.cons_append, foldProviders, if_neg h] using ih _

/-- C1.  The combined search returns at most `maxCount - 1` elements, and once
the accumulator holds at least `maxCount` elements when a provider's turn
comes, that provider and all later ones contribute nothing (the loop `break`s
before invoking them). -/
theorem combined_search_bounded_and_skips (key : α → String) (maxCount : Nat)
    (searches : List (Except Unit (List α))) (_hmax : 1 ≤ maxCount) :
    (performCombinedSearch key maxCount searches).length ≤ maxCount - 1 ∧
    ∀ s1 s2, searches = s1 ++ s2 →
      maxCount ≤ (foldProviders key maxCount s1 ([], [])).2.length →
      performCombinedSearch key maxCount searches =
        performCombinedSearch key maxCount s1 := by
  constructor
  · exact (List.length_take_le _ _).trans (le_refl _)
  · intro s1 s2 hsplit hcap
    subst hsplit
    unfold performCombinedSearch
    rw [foldProviders_append, foldProviders_stop key maxCount s2 _ hcap]

lemma foldProviders_error_cons (key : α → String) (maxCount : Nat)
    (ss : List (Except Unit (List α))) (acc : List String × List α) :
    foldProviders key maxCount (Except.error () :: ss) acc =
      foldProviders key maxCount ss acc := by
  obtain ⟨d, e⟩ := acc
  by_cases h : maxCount ≤ e.length
  · simp only [foldProviders, if_pos h]
    rw [foldProviders_stop key maxCount ss (d, e) h]
  · simp only [foldProviders, if_neg h]

/-- C3.  A member provider that raises is excluded without aborting the
aggregate: the combined search over a member list with a failing provider
equals the combined search over the list without it (the embedding is a total
function, so no exception escapes), and when every member fails the result is
the empty sequence, a successful call. -/
theorem combined_search_tolerates_failures (key : α → String) (maxCount : Nat)
    (_hmax : 1 ≤ maxCount) :
    (∀ s1 s2 : List (Except Unit (List α)),
      performCombinedSearch key maxCount (s1 ++ Except.error () :: s2) =
        performCombinedSearch key maxCount (s1 ++ s2)) ∧
    (∀ searches : List (Except Unit (List α)),
      (∀ r ∈ searches, r = Except.error ()) →
      performCombinedSearch key maxCount searches = []) := by
  constructor
  · intro s1 s2
    unfold performCombinedSearch
    rw [foldProviders_append, foldProviders_append, foldProviders_error_cons]
  · intro searches hall
    have : foldProviders key maxCount searches ([], []) = ([], []) := by
      induction searches with
      | nil => rfl
      | cons s ss ih =>
        have hs := hall s (List.mem_cons_self s ss)
        subst hs
        rw [foldProviders_error_cons]
        exact ih fun r hr => hall r (List.mem_cons_of_mem _ hr)
    unfold performCombinedSearch
    rw [this]
    exact List.take_nil

/-- Witness for C3 at a concrete input. -/
theorem combined_search_tolerates_failures_witness :
    (∀ s1 s2 : List (Except Unit (List String)),
      performCombinedSearch (fun s => s) 25 (s1 ++ Except.error () :: s2) =
        performCombinedSearch (fun s => s) 25 (s1 ++ s2)) ∧
    (∀ searches : List (Except Unit (List String)),
      (∀ r ∈ searches, r = Except.error ()) →
      performCombinedSearch (fun s => s) 25 searches = []) :=
  combined_search_tolerates_failures (fun s => s) 25 (by decide)

/-! ### First-claim deduplication (C2) -/

/-- `foldProvidersTrace` is `foldProviders` extended with a ghost component
`considered`, the concatenation (in order) of the result lists of exactly the
providers the loop actually invoked; its first two components compute exactly
what `foldProviders` computes (`foldProvidersTrace_proj`). -/
def foldProvidersTrace (key : α → String) (maxCount : Nat) :
    List (Except Unit (List α)) → List String × List α × List α →
      List String × List α × List α
  | [], acc => acc
  | s :: ss, (discovered, elements, considered) =>
    if maxCount ≤ elements.length then (discovered, elements, considered)
    else
      match s with
      | .error _ => foldProvidersTrace key maxCount ss (discovered, elements, considered)
      | .ok results =>
          foldProvidersTrace key maxCount ss
            ((foldProviderResults key results (discovered, elements)).1,
             (foldProviderResults key results (discovered, elements)).2,
             considered ++ results)

/-- The elements the combined search actually considered: the concatenated
results of the invoked (non-skipped, non-failing) providers, in member-list
order and each in its own order. -/
def consideredResults (key : α → String) (maxCount : Nat)
    (searches : List (Except Unit (List α))) : List α :=
  (foldProvidersTrace key maxCount searches ([], [], [])).2.2

/-- Modelled from the spec: first-claim deduplication — walking the considered
elements in order, the first element to claim a given `detailed_name` key wins
and every later duplicate is dropped.  `seen` holds the keys already claimed. -/
def dedupFirstByKey (key : α → String) : List α → List String → List α
  | [], _ => []
  | x :: xs, seen =>
    if key x ∈ seen then dedupFirstByKey key xs seen
    else x :: dedupFirstByKey key xs (key x :: seen)

lemma foldProvidersTrace_proj (key : α → String) (maxCount : Nat)
    (ss : List (Except Unit (List α))) (d : List String) (e c : List α) :
    ((foldProvidersTrace key maxCount ss (d, e, c)).1,
     (foldProvidersTrace key maxCount ss (d, e, c)).2.1) =
      foldProviders key maxCount ss (d, e) := by
  induction ss generalizing d e c with
  | nil => rfl
  | cons s ss ih =>
    by_cases h : maxCount ≤ e.length
    · simp only [foldProvidersTrace, foldProviders, if_pos h]
    · cases s with
      | error err =>
        simp only [foldProvidersTrace, foldProviders, if_neg h]
        exact ih d e c
      | ok results =>
        simp only [foldProvidersTrace, foldProviders, if_neg h]
        exact ih _ _ _

lemma foldProviderResults_elements (key : α → String) (rs : List α)
    (d : List String) (e : List α) :
    (foldProviderResults key rs (d, e)).2 = e ++ dedupFirstByKey key rs d := by
  induction rs generalizing d e with
  | nil => simp [foldProviderResults, dedupFirstByKey]
  | cons r rs ih =>
    by_cases h : key r ∈ d
    · simp only [foldProviderResults, dedupFirstByKey, if_pos h]
      exact ih d e
    · simp only [foldProviderResults, dedupFirstByKey, if_neg h]
      rw [ih]
      simp

lemma foldProviderResults_discovered (key : α → String) (rs : List α)
    (d : List String) (e : List α) (k : String) :
    k ∈ (foldProviderResults key rs (d, e)).1 ↔ k ∈ d ∨ k ∈ rs.map key := by
  induction rs generalizing d e with
  | nil => simp [foldProviderResults]
  | cons r rs ih =>
    by_cases h : key r ∈ d
    · simp only [foldProviderResults, if_pos h]
      rw [ih]
      simp only [List.map_cons, List.mem_cons]
      constructor
      · rintro (hd | hr)
        · exact Or.inl hd
        · exact Or.inr (Or.inr hr)
      · rintro (hd | hk | hr)
        · exact Or.inl hd
        · exact Or.inl (hk ▸ h)
        · exact Or.inr hr
    · simp only [foldProviderResults, if_neg h]
      rw [ih]
      simp only [List.mem_cons, List.map_cons]
      tauto

lemma dedupFirstByKey_congr (key : α → String) (rs : List α)
    (s1 s2 : List String) (h : ∀ k, k ∈ s1 ↔ k ∈ s2) :
    dedupFirstByKey key rs s1 = dedupFirstByKey key rs s2 := by
  induction rs generalizing s1 s2 with
  | nil => rfl
  | cons r rs ih =>
    by_cases hr : key r ∈ s1
    · simp only [dedupFirstByKey, if_pos hr, if_pos ((h (key r)).mp hr)]
      exact ih s1 s2 h
    · have hr2 : key r ∉ s2 := fun hc => hr ((h (key r)).mpr hc)
      simp only [dedupFirstByKey, if_neg hr, if_neg hr2]
      refine congrArg _ (ih _ _ fun k => ?_)
      simp only [List.mem_cons]
      exact or_congr Iff.rfl (h k)

lemma dedupFirstByKey_append (key : α → String) (c rs : List α)
    (s s' : List String) (h : ∀ k, k ∈ s' ↔ k ∈ s ∨ k ∈ c.map key) :
    dedupFirstByKey key (c ++ rs) s =
      dedupFirstByKey key c s ++ dedupFirstByKey key rs s' := by
  induction c generalizing s with
  | nil =>
    simp only [List.nil_append, dedupFirstByKey]
    exact dedupFirstByKey_congr key rs s s' fun k => by
      rw [h k]; simp
  | cons x c ih =>
    by_cases hx : key x ∈ s
    · simp only [List.cons_append, dedupFirstByKey, if_pos hx]
      refine ih s fun k => ?_
      rw [h k]
      simp only [List.map_cons, List.mem_cons]
      constructor
      · rintro (hs | hk | hc)
        · exact Or.inl hs
        · exact Or.inl (hk ▸ hx)
        · exact Or.inr hc
      · tauto
    · simp only [List.cons_append, dedupFirstByKey, if_neg hx, List.append_eq]
      have hih := ih (key x :: s) (fun k => by
        rw [h k]
        simp only [List.map_cons, List.mem_cons, List.mem_map]
        tauto)
      rw [hih]

lemma foldProvidersTrace_dedup (key : α → String) (maxCount : Nat)
    (ss : List (Except Unit (List α))) (d : List String) (e c : List α)
    (hd : ∀ k, k ∈ d ↔ k ∈ c.map key) (he : e = dedupFirstByKey key c []) :
    (foldProvidersTrace key maxCount ss (d, e, c)).2.1 =
      dedupFirstByKey key (foldProvidersTrace key maxCount ss (d, e, c)).2.2 [] := by
  induction ss generalizing d e c with
  | nil => exact he
  | cons s ss ih =>
    by_cases h : maxCount ≤ e.length
    · simp only [foldProvidersTrace, if_pos h]
      exact he
    · cases s with
      | error err =>
        simp only [foldProvidersTrace, if_neg h]
        exact ih d e c hd he
      | ok results =>
        simp only [foldProvidersTrace, if_neg h]
        refine ih _ _ _ ?_ ?_
        · intro k
          rw [foldProviderResults_discovered, hd k]
          simp only [List.map_append, List.mem_append]
        · rw [foldProviderResults_elements,
            dedupFirstByKey_append key c results [] d
              (fun k => by rw [hd k]; simp), he]

lemma dedupFirstByKey_keys_nodup (key : α → String) (l : List α)
    (s : List String) :
    ((dedupFirstByKey key l s).map key).Nodup ∧
      ∀ x ∈ dedupFirstByKey key l s, key x ∉ s := by
  induction l generalizing s with
  | nil => simp [dedupFirstByKey]
  | cons x l ih =>
    by_cases hx : key x ∈ s
    · simpa only [dedupFirstByKey, if_pos hx] using ih s
    · simp only [dedupFirstByKey, if_neg hx, List.map_cons, List.nodup_cons]
      obtain ⟨ihn, ihs⟩ := ih (key x :: s)
      refine ⟨⟨?_, ihn⟩, ?_⟩
      · intro hc
        obtain ⟨y, hy, hky⟩ := List.mem_map.mp hc
        exact (ihs y hy) (hky ▸ List.mem_cons_self _ _)
      · intro y hy
        rcases List.mem_cons.mp hy with rfl | hy'
        · exact hx
        · intro hc
          exact ihs y hy' (List.mem_cons_of_mem _ hc)

/-- C2.  The combined search output carries pairwise-distinct keys, and it is
exactly the first-claim deduplication (earlier provider in the member list,
then earlier position inside one provider's output, wins) of the considered
element stream, truncated to `maxCount - 1`. -/
theorem combined_search_dedup_first_claim (key : α → String) (maxCount : Nat)
    (searches : List (Except Unit (List α))) (_hmax : 1 ≤ maxCount) :
    ((performCombinedSearch key maxCount searches).map key).Nodup ∧
    performCombinedSearch key maxCount searches =
      (dedupFirstByKey key (consideredResults key maxCount searches) []).take
        (maxCount - 1) := by
  have hproj := foldProvidersTrace_proj key maxCount searches [] [] []
  have hded := foldProvidersTrace_dedup key maxCount searches [] [] []
    (fun k => by simp) rfl
  have heq : performCombinedSearch key maxCount searches =
      (dedupFirstByKey key (consideredResults key maxCount searches) []).take
        (maxCount - 1) := by
    unfold performCombinedSearch consideredResults
    have h2 : (foldProviders key maxCount searches ([], [])).2 =
        (foldProvidersTrace key maxCount searches ([], [], [])).2.1 := by
      rw [← hproj]
    rw [h2, hded]
  refine ⟨?_, heq⟩
  rw [heq, List.map_take]
  exact List.Nodup.sublist (List.take_sublist _ _)
    (dedupFirstByKey_keys_nodup key (consideredResults key maxCount searches) []).1

/-- Witness for C2 at a concrete input: two providers with one shared key
(`"b"`); the earlier provider's element is retained. -/
theorem combined_search_dedup_first_claim_witness :
    ((performCombinedSearch (fun s => s) 25
        [Except.ok ["a", "b"], Except.ok ["b", "c"]]).map (fun s => s)).Nodup ∧
    performCombinedSearch (fun s => s) 25
        [Except.ok ["a", "b"], Except.ok ["b", "c"]] =
      (dedupFirstByKey (fun s => s)
        (consideredResults (fun s => s) 25
          [Except.ok ["a", "b"], Except.ok ["b", "c"]]) []).take 24 :=
  combined_search_dedup_first_claim (fun s => s) 25
    [Except.ok ["a", "b"], Except.ok ["b", "c"]] (by decide)

/-- Witness for C1 at a concrete input: `maxCount = 25`, two providers whose
results share no keys. -/
theorem combined_search_bounded_and_skips_witness :
    (performCombinedSearch (fun s => s) 25
        [Except.ok ["a", "b"], Except.ok ["c"]]).length ≤ 24 ∧
    ∀ s1 s2, ([Except.ok ["a", "b"], Except.ok ["c"]] :
        List (Except Unit (List String))) = s1 ++ s2 →
      25 ≤ (foldProviders (fun s => s) 25 s1 ([], [])).2.length →
      performCombinedSearch (fun s => s) 25 [Except.ok ["a", "b"], Except.ok ["c"]] =
        performCombinedSearch (fun s => s) 25 s1 :=
  combined_search_bounded_and_skips (fun s => s) 25
    [Except.ok ["a", "b"], Except.ok ["c"]] (by decide)

/-! ## Python string primitives

The Python string methods the adapters use, implemented structurally over the
character list of a `String` (so that every concrete instance evaluates by
kernel reduction).  Case mapping is the ASCII one (`Char.toLower` /
`Char.toUpper`), on which Python's `str.lower`, `str.casefold` and
`str.upper` agree; whitespace is `Char.isWhitespace`, agreeing with Python's
`str.strip` / `str.isspace` on the ASCII whitespace the backends emit. -/

/-- Python `str.casefold()`. -/
def pyCasefold (s : String) : String := String.mk (s.data.map Char.toLower)

/-- Python `str.lower()`. -/
def pyLower (s : String) : String := String.mk (s.data.map Char.toLower)

/-- Python `str.upper()`. -/
def pyUpper (s : String) : String := String.mk (s.data.map Char.toUpper)

/-- Python `str.strip()` with no argument: drop leading and trailing
whitespace. -/
def pyStrip (s : String) : String :=
  String.mk
    (((s.data.dropWhile Char.isWhitespace).reverse.dropWhile
      Char.isWhitespace).reverse)

/-- Python `str.isspace()`: non-empty and every character whitespace. -/
def pyIsSpace (s : String) : Bool :=
  !s.data.isEmpty && s.data.all Char.isWhitespace

/-- `pre` is a prefix of `l` (character lists). -/
def startsWithChars : List Char → List Char → Bool
  | [], _ => true
  | _ :: _, [] => false
  | a :: as, b :: bs => a == b && startsWithChars as bs

/-- Python `s.startswith(pre)`. -/
def pyStartsWith (s pre : String) : Bool := startsWithChars pre.data s.data

/-- `needle` occurs contiguously in `hay` (character lists). -/
def containsChars (needle : List Char) : List Char → Bool
  | [] => needle.isEmpty
  | c :: t => startsWithChars needle (c :: t) || containsChars needle t

/-- Python `needle in hay` on strings: contiguous-substring test. -/
def pyContains (hay needle : String) : Bool := containsChars needle.data hay.data

/-- Python slicing `s[n:]` (by code points). -/
def pyDrop (s : String) (n : Nat) : String := String.mk (s.data.drop n)

/-- Helper of `pySplit`: walk the string; a positive `skip` means we are still
inside a just-matched separator occurrence; `cur` is the current piece,
reversed. -/
def pySplitGo (sep : List Char) : List Char → Nat → List Char → List (List Char)
  | [], _, cur => [cur.reverse]
  | _ :: cs, Nat.succ k, cur => pySplitGo sep cs k cur
  | c :: cs, 0, cur =>
    if startsWithChars sep (c :: cs) then
      cur.reverse :: pySplitGo sep cs (sep.length - 1) []
    else pySplitGo sep cs 0 (c :: cur)

/-- Python `s.split(sep)` for a non-empty separator: split on every
occurrence, keeping empty pieces (`"".split(sep) == [""]`, so the result is
never empty). -/
def pySplit (s sep : String) : List String :=
  (pySplitGo sep.data s.data 0 []).map String.mk

/-- Python `sep.join(pieces)`. -/
def pyJoin (sep : String) : List String → String
  | [] => ""
  | [p] => p
  | p :: ps => p ++ sep ++ pyJoin sep ps

/-! ## `_convert_addon_version` (C7) -/

/-- `_convert_addon_version`: `None` passes through; the *stripped, casefolded*
copy is compared with `"unknown"` and tested for the `"unknown"` prefix, but
the slice `addon_version[len("unknown"):]` is taken from the *original*
string. -/
def convert_addon_version (addon_version : Option String) : Option String :=
  match addon_version with
  | none => none
  | some v =>
    let casefold_addon_version := pyCasefold (pyStrip v)
    if casefold_addon_version = "unknown" then none
    else if pyStartsWith casefold_addon_version "unknown" then
      some (pyStrip (pyDrop v "unknown".length))
    else some v

/-- C7 counterexample.  The claim's trichotomy fails on `"  UNKNOWN 1.2"`: the
prefix test is made on the stripped copy but the slice is taken from the
original string, so the result is `"WN 1.2"` — neither the prefix-stripped
`"1.2"` nor the input unchanged. -/
theorem convert_addon_version_counterexample :
    convert_addon_version (some "  UNKNOWN 1.2") = some "WN 1.2" ∧
    ("WN 1.2" : String) ≠ "1.2" ∧
    ("WN 1.2" : String) ≠ "  UNKNOWN 1.2" := by
  refine ⟨?_, by decide, by decide⟩
  rfl

/-- C7 amended.  `None` stays `None`; a string whose stripped form casefolds
to `"unknown"` becomes absent; otherwise, when the stripped+casefolded form
starts with `"unknown"`, the result is the original string with its first
`len("unknown")` characters removed and then stripped (which strips the prefix
when the original has no leading whitespace, e.g. `"UNKNOWN 1.2"` → `"1.2"`,
`"unknown"` → `none`, but misaligns when it does); any other string is
returned unchanged (`"1.2"` → `"1.2"`). -/
theorem convert_addon_version_amended (v : String) :
    convert_addon_version none = none ∧
    (pyCasefold (pyStrip v) = "unknown" →
      convert_addon_version (some v) = none) ∧
    (pyCasefold (pyStrip v) ≠ "unknown" →
      pyStartsWith (pyCasefold (pyStrip v)) "unknown" = true →
      convert_addon_version (some v) = some (pyStrip (pyDrop v 7))) ∧
    (pyCasefold (pyStrip v) ≠ "unknown" →
      pyStartsWith (pyCasefold (pyStrip v)) "unknown" = false →
      convert_addon_version (some v) = some v) ∧
    convert_addon_version (some "unknown") = none ∧
    convert_addon_version (some "UNKNOWN 1.2") = some "1.2" ∧
    convert_addon_version (some "1.2") = some "1.2" := by
  refine ⟨rfl, ?_, ?_, ?_, by rfl, by rfl, by rfl⟩
  · intro h
    simp [convert_addon_version, h]
  · intro h1 h2
    simp only [convert_addon_version, if_neg h1, h2, if_pos rfl]
    rfl
  · intro h1 h2
    simp only [convert_addon_version, if_neg h1, h2]
    rfl

/-! ## SkriptLang adapter: client-side ranking (C4) and corpus cache (C5) -/

/-- `SkriptLangDocumentationProvider._compute_match_level`. -/
def compute_match_level (query : String) (element : SyntaxElement) : Option Nat :=
  let casefolded_query := pyCasefold query
  let casefolded_element_name := pyCasefold element.name
  if casefolded_element_name = casefolded_query then some 1
  else
    let name_matches := pyContains casefolded_element_name casefolded_query
    let description_matches :=
      pyContains (pyCasefold element.description) casefolded_query
    if name_matches && description_matches then some 2
    else if name_matches then some 3
    else if description_matches then some 4
    else none

/-- Insert `x` into `l` before the first element of key ≥ `key x`. -/
def insertSorted (key : α → Nat) (x : α) : List α → List α
  | [] => [x]
  | y :: ys => if key x ≤ key y then x :: y :: ys else y :: insertSorted key x ys

/-- Stable sort by a `Nat` key: Python's `list.sort(key=...)` is a stable sort,
and any two stable sorts by the same key compute the same list, so insertion
sort (inserting each element before the equal-key elements that followed it)
models it exactly. -/
def sortByKey (key : α → Nat) : List α → List α
  | [] => []
  | x :: xs => insertSorted key x (sortByKey key xs)

lemma mem_insertSorted (key : α → Nat) (x : α) (l : List α) (z : α) :
    z ∈ insertSorted key x l ↔ z = x ∨ z ∈ l := by
  induction l with
  | nil => simp [insertSorted]
  | cons y ys ih =>
    by_cases h : key x ≤ key y
    · simp [insertSorted, if_pos h]
    · simp only [insertSorted, if_neg h, List.mem_cons, ih]
      tauto

lemma insertSorted_pairwise (key : α → Nat) (x : α) (l : List α)
    (h : l.Pairwise (fun a b => key a ≤ key b)) :
    (insertSorted key x l).Pairwise (fun a b => key a ≤ key b) := by
  induction l with
  | nil => simp [insertSorted]
  | cons y ys ih =>
    rcases List.pairwise_cons.mp h with ⟨hy, hys⟩
    by_cases hxy : key x ≤ key y
    · rw [insertSorted, if_pos hxy]
      refine List.pairwise_cons.mpr ⟨?_, h⟩
      intro z hz
      rcases List.mem_cons.mp hz with rfl | hz'
      · exact hxy
      · exact hxy.trans (hy z hz')
    · rw [insertSorted, if_neg hxy]
      refine List.pairwise_cons.mpr ⟨?_, ih hys⟩
      intro z hz
      rcases (mem_insertSorted key x ys z).mp hz with rfl | hz'
      · exact le_of_lt (lt_of_not_le hxy)
      · exact hy z hz'

lemma sortByKey_pairwise (key : α → Nat) (l : List α) :
    (sortByKey key l).Pairwise (fun a b => key a ≤ key b) := by
  induction l with
  | nil => simp [sortByKey]
  | cons x xs ih => exact insertSorted_pairwise key x _ ih

lemma insertSorted_perm (key : α → Nat) (x : α) (l : List α) :
    List.Perm (insertSorted key x l) (x :: l) := by
  induction l with
  | nil => rfl
  | cons y ys ih =>
    by_cases h : key x ≤ key y
    · rw [insertSorted, if_pos h]
    · rw [insertSorted, if_neg h]
      exact (ih.cons y).trans (List.Perm.swap x y ys)

lemma sortByKey_perm (key : α → Nat) (l : List α) :
    List.Perm (sortByKey key l) l := by
  induction l with
  | nil => rfl
  | cons x xs ih => exact (insertSorted_perm key x _).trans (ih.cons x)

lemma filter_insertSorted_neg (key : α → Nat) (p : α → Bool) (x : α)
    (l : List α) (hpx : p x = false) :
    (insertSorted key x l).filter p = l.filter p := by
  induction l with
  | nil => simp [insertSorted, hpx]
  | cons y ys ih =>
    by_cases h : key x ≤ key y
    · simp [insertSorted, if_pos h, hpx]
    · rw [insertSorted, if_neg h]
      simp only [List.filter_cons, ih]

lemma filter_insertSorted_pos (key : α → Nat) (p : α → Bool) (x : α)
    (l : List α) (hpx : p x = true)
    (hkey : ∀ a, p a = true → key a = key x) :
    (insertSorted key x l).filter p = x :: l.filter p := by
  induction l with
  | nil => simp [insertSorted, hpx]
  | cons y ys ih =>
    by_cases h : key x ≤ key y
    · simp [insertSorted, if_pos h, hpx]
    · rw [insertSorted, if_neg h]
      have hpy : p y = false := by
        cases hy : p y with
        | false => rfl
        | true =>
          exfalso
          apply h
          rw [hkey y hy]
      simp [List.filter_cons, hpy, ih]

lemma filter_sortByKey (key : α → Nat) (p : α → Bool) (l : List α) (n : Nat)
    (hp : ∀ a, p a = true → key a = n) :
    (sortByKey key l).filter p = l.filter p := by
  induction l with
  | nil => rfl
  | cons x xs ih =>
    rw [sortByKey]
    by_cases hpx : p x = true
    · rw [filter_insertSorted_pos key p x _ hpx
        (fun a ha => (hp a ha).trans (hp x hpx).symm), ih]
      simp [List.filter_cons, hpx]
    · simp only [Bool.not_eq_true] at hpx
      rw [filter_insertSorted_neg key p x _ hpx, ih]
      simp [List.filter_cons, hpx]

/-- The pure ranking part of `SkriptLangDocumentationProvider.perform_search`
(lines 128–130): keep the elements with a match level, sort them by match
level.  The sort key defaults the (filtered-out) `none` level to `0`; every
retained element has a `some` level, so the default is never read. -/
def skriptLangRank (query : String) (elements : List SyntaxElement) :
    List SyntaxElement :=
  let matching_elements :=
    elements.filter (fun e => (compute_match_level query e).isSome)
  sortByKey (fun e => (compute_match_level query e).getD 0) matching_elements

/-- The `"wait"` element of the spec's ranking example. -/
def waitExampleElement : SyntaxElement :=
  { id := "wait", provider := { name := "SkriptLang", token := none },
    name := "wait", description := "pauses execution",
    patterns := ["wait %timespan%"], examples := none,
    required_addon := some "Skript", required_addon_version := none,
    required_minecraft_version := none, type := SyntaxType.EFFECT,
    required_plugins := none, return_type := none, event_values := none,
    cancellable := none, link := "" }

/-- The `"broadcast"` element of the spec's ranking example. -/
def broadcastExampleElement : SyntaxElement :=
  { id := "broadcast", provider := { name := "SkriptLang", token := none },
    name := "broadcast", description := "wait message to all",
    patterns := ["broadcast %texts%"], examples := none,
    required_addon := some "Skript", required_addon_version := none,
    required_minecraft_version := none, type := SyntaxType.EFFECT,
    required_plugins := none, return_type := none, event_values := none,
    cancellable := none, link := "" }

/-- C4.  The match level is 1 exactly on a case-insensitive name equality, 2 on
a substring match in both name and description, 3 in the name only, 4 in the
description only, and the element is excluded (`none`) otherwise; the ranked
output is sorted ascending by level, contains exactly the corpus elements with
a level, keeps equal-level elements in corpus order (stable sort), and on the
spec's example the exact-name match `"wait"` precedes the description-only
match `"broadcast"` although it comes later in the corpus. -/
theorem skriptLang_match_level_ranking (query : String)
    (corpus : List SyntaxElement) :
    (∀ e : SyntaxElement,
      (compute_match_level query e = some 1 ↔
        pyCasefold e.name = pyCasefold query) ∧
      (compute_match_level query e = some 2 ↔
        pyCasefold e.name ≠ pyCasefold query ∧
        pyContains (pyCasefold e.name) (pyCasefold query) = true ∧
        pyContains (pyCasefold e.description) (pyCasefold query) = true) ∧
      (compute_match_level query e = some 3 ↔
        pyCasefold e.name ≠ pyCasefold query ∧
        pyContains (pyCasefold e.name) (pyCasefold query) = true ∧
        pyContains (pyCasefold e.description) (pyCasefold query) = false) ∧
      (compute_match_level query e = some 4 ↔
        pyCasefold e.name ≠ pyCasefold query ∧
        pyContains (pyCasefold e.name) (pyCasefold query) = false ∧
        pyContains (pyCasefold e.description) (pyCasefold query) = true) ∧
      (compute_match_level query e = none ↔
        pyCasefold e.name ≠ pyCasefold query ∧
        pyContains (pyCasefold e.name) (pyCasefold query) = false ∧
        pyContains (pyCasefold e.description) (pyCasefold query) = false)) ∧
    (skriptLangRank query corpus).Pairwise
      (fun a b => (compute_match_level query a).getD 0 ≤
        (compute_match_level query b).getD 0) ∧
    (∀ e : SyntaxElement, e ∈ skriptLangRank query corpus ↔
      e ∈ corpus ∧ (compute_match_level query e).isSome = true) ∧
    (∀ n : Nat,
      (skriptLangRank query corpus).filter
          (fun e => compute_match_level query e == some n) =
        corpus.filter (fun e => compute_match_level query e == some n)) ∧
    skriptLangRank "wait" [broadcastExampleElement, waitExampleElement] =
      [waitExampleElement, broadcastExampleElement] := by
  refine ⟨?_, ?_, ?_, ?_, by decide⟩
  · intro e
    by_cases h1 : pyCasefold e.name = pyCasefold query
    · simp [compute_match_level, h1]
    · cases hn : pyContains (pyCasefold e.name) (pyCasefold query) <;>
        cases hd : pyContains (pyCasefold e.description) (pyCasefold query) <;>
        simp [compute_match_level, h1, hn, hd]
  · exact sortByKey_pairwise _ _
  · intro e
    simp only [skriptLangRank]
    rw [(sortByKey_perm _ _).mem_iff, List.mem_filter]
  · intro n
    simp only [skriptLangRank]
    rw [filter_sortByKey _ _ _ n (fun a ha => by
      have : compute_match_level query a = some n := by
        simpa using ha
      simp [this])]
    rw [List.filter_filter]
    refine List.filter_congr fun a _ => ?_
    cases ha : (compute_match_level query a == some n) with
    | false => simp
    | true =>
      have : compute_match_level query a = some n := by simpa using ha
      simp [this]

/-- `SkriptLangDocumentationProvider.perform_search`.  The cache state
`none` models `all_elements is None` (nothing cached yet); `some (t, corpus)`
models a cached corpus with `last_request_time = t` (the two Python
attributes are populated together on the successful fetch path).  Times are
seconds as integers, so `timedelta(hours=1)` is 3600; the two `datetime.now()`
calls of lines 125–126 are modelled as the one instant `now`.  A fetch (the
would-be result of `_get_all_elements` is passed in as `fetched`) happens
exactly when nothing is cached or more than one hour has elapsed, recording
`now` as the last request time; otherwise the cache is reused.  Returns
(new cache state, whether a fetch was issued, results). -/
def skriptLangPerformSearch (fetched : List SyntaxElement) (now : Int)
    (query : String) (cache : Option (Int × List SyntaxElement)) :
    Option (Int × List SyntaxElement) × Bool × List SyntaxElement :=
  match cache with
  | none => (some (now, fetched), true, skriptLangRank query fetched)
  | some (t, all_elements) =>
    if 3600 < now - t then (some (now, fetched), true, skriptLangRank query fetched)
    else (some (t, all_elements), false, skriptLangRank query all_elements)

/-- C5.  A fetch is issued exactly when no corpus is cached or more than one
hour has elapsed since the last fetch; a search within the window reuses the
cached corpus unchanged with no fetch; after a fetch at time `now`, a search
within one hour of `now` issues no fetch and reuses the fetched corpus, and a
search more than one hour after `now` issues exactly one re-fetch. -/
theorem skriptLang_cache_staleness (fetched : List SyntaxElement) (now : Int)
    (query : String) (cache : Option (Int × List SyntaxElement)) :
    ((skriptLangPerformSearch fetched now query cache).2.1 = true ↔
      cache = none ∨ ∃ t corpus, cache = some (t, corpus) ∧ 3600 < now - t) ∧
    (∀ t corpus, cache = some (t, corpus) → now - t ≤ 3600 →
      skriptLangPerformSearch fetched now query cache =
        (some (t, corpus), false, skriptLangRank query corpus)) ∧
    ((skriptLangPerformSearch fetched now query cache).2.1 = true →
      (skriptLangPerformSearch fetched now query cache).1 = some (now, fetched)) ∧
    (∀ (fetched2 : List SyntaxElement) (now2 : Int) (query2 : String),
      now2 - now ≤ 3600 →
      skriptLangPerformSearch fetched2 now2 query2 (some (now, fetched)) =
        (some (now, fetched), false, skriptLangRank query2 fetched)) ∧
    (∀ (fetched3 : List SyntaxElement) (now3 : Int) (query3 : String),
      3600 < now3 - now →
      skriptLangPerformSearch fetched3 now3 query3 (some (now, fetched)) =
        (some (now3, fetched3), true, skriptLangRank query3 fetched3)) := by
  refine ⟨?_, ?_, ?_, ?_, ?_⟩
  · cases cache with
    | none => simp [skriptLangPerformSearch]
    | some tc =>
      obtain ⟨t, corpus⟩ := tc
      by_cases h : 3600 < now - t
      · simp [skriptLangPerformSearch, if_pos h, h]
      · simp [skriptLangPerformSearch, if_neg h, h]
  · intro t corpus hc hwin
    subst hc
    simp [skriptLangPerformSearch, if_neg (not_lt.mpr hwin)]
  · cases cache with
    | none => intro _; rfl
    | some tc =>
      obtain ⟨t, corpus⟩ := tc
      by_cases h : 3600 < now - t
      · intro _
        simp [skriptLangPerformSearch, if_pos h]
      · intro hcontra
        simp [skriptLangPerformSearch, if_neg h] at hcontra
  · intro fetched2 now2 query2 hwin
    simp [skriptLangPerformSearch, if_neg (not_lt.mpr hwin)]
  · intro fetched3 now3 query3 hstale
    simp [skriptLangPerformSearch, if_pos hstale]

/-! ## Skript-MC adapter: edit-distance nearest-neighbor search (C6) -/

/-- Levenshtein edit distance on character lists, computed with a fuel
argument for structural recursion; `fuel ≥ |xs| + |ys|` suffices (every
recursive call shrinks `|xs| + |ys|`), and `distance` below always supplies
exactly that, so the fuel-exhausted branch is never taken. -/
def levFuel : Nat → List Char → List Char → Nat
  | 0, xs, ys => xs.length + ys.length
  | _ + 1, [], ys => ys.length
  | _ + 1, xs, [] => xs.length
  | f + 1, x :: xs, y :: ys =>
    if x == y then levFuel f xs ys
    else 1 + min (levFuel f xs ys)
      (min (levFuel f (x :: xs) ys) (levFuel f xs (y :: ys)))

/-- `Levenshtein.distance` (the library function the adapter imports):
standard edit distance between two strings. -/
def distance (a b : String) : Nat := levFuel (a.length + b.length) a.data b.data

/-- Index of the first `')'` in the list, scanning no further than the first
newline (the lazy `.*?` of the pattern cannot cross `'\n'`). -/
def firstDotCloseParen : List Char → Option Nat
  | [] => none
  | c :: cs =>
    if c = ')' then some 0
    else if c = '\n' then none
    else (firstDotCloseParen cs).map (· + 1)

/-- One candidate split of `re.match(r"(?P<englishName>.+) \((?P<frenchName>.*?)\)", s)`
with the english group of length `i`: the first `i` characters (newline-free,
non-empty, as `.+` demands), then a literal `" ("`, then the shortest
newline-free run up to a `')'`. -/
def nameMatchAt (s : List Char) (i : Nat) : Option (List Char × List Char) :=
  if 1 ≤ i ∧ (s.take i).all (fun c => !(c == '\n')) ∧
      (s.drop i).take 2 = [' ', '('] then
    match firstDotCloseParen (s.drop (i + 2)) with
    | some j => some (s.take i, (s.drop (i + 2)).take j)
    | none => none
  else none

/-- Greedy backtracking of `.+`: the split with the largest feasible english
group wins. -/
def pickLargest (s : List Char) : Nat → Option (List Char × List Char)
  | 0 => none
  | i + 1 =>
    match nameMatchAt s (i + 1) with
    | some r => some r
    | none => pickLargest s i

/-- `re.match(r"(?P<englishName>.+) \((?P<frenchName>.*?)\)", name)`: the
`(englishName, frenchName)` groups, or `none` when the pattern does not match
a prefix of `name`. -/
def skriptMcNameMatch (name : String) : Option (String × String) :=
  (pickLargest name.data name.data.length).map
    (fun p => (String.mk p.1, String.mk p.2))

/-- The `levenshteinDistance` closure inside
`SkriptMcDocumentationProvider.perform_search`: when the name regex does not
match, *both* group strings are empty (`"" if name_match is None`), so the
distance degenerates to the query's length. -/
def skriptMcLevenshteinKey (query : String) (element : SyntaxElement) : Nat :=
  let name_match := skriptMcNameMatch element.name
  let english_name := match name_match with | some p => p.1 | none => ""
  let french_name := match name_match with | some p => p.2 | none => ""
  min (distance (pyLower english_name) (pyLower query))
      (distance (pyLower french_name) (pyLower query))

/-- Python `min(iterable, key=f, default=None)`: the first element attaining
the smallest key, `none` for an empty iterable. -/
def minByKey (f : α → Nat) : List α → Option α
  | [] => none
  | x :: xs =>
    match minByKey f xs with
    | none => some x
    | some y => if f x ≤ f y then some x else some y

/-- `SkriptMcDocumentationProvider.perform_search`: empty query short-circuits
to `[]`; otherwise the single corpus element with the smallest
`levenshteinDistance` key (`[]` for an empty corpus). -/
def skriptMcPerformSearch (syntaxes : List SyntaxElement) (query : String) :
    List SyntaxElement :=
  if query = "" then []
  else
    match minByKey (skriptMcLevenshteinKey query) syntaxes with
    | some best_match => [best_match]
    | none => []

/-- Modelled from the spec (for refutation of C6 only): the claim's reading of
the candidate distance — the name with an *optional* trailing parenthetical
alternate name stripped out and the parenthetical name compared separately,
the smaller winning; a name *without* the parenthetical is compared as
itself. -/
def specMcCandidateDistance (query : String) (element : SyntaxElement) : Nat :=
  match skriptMcNameMatch element.name with
  | some p => min (distance (pyLower p.1) (pyLower query))
      (distance (pyLower p.2) (pyLower query))
  | none => distance (pyLower element.name) (pyLower query)

/-- Modelled from the spec (for refutation of C6 only): the nearest-neighbor
search as the claim states it, with `specMcCandidateDistance` as the key. -/
def specMcPerformSearch (syntaxes : List SyntaxElement) (query : String) :
    List SyntaxElement :=
  if query = "" then []
  else
    match minByKey (specMcCandidateDistance query) syntaxes with
    | some best_match => [best_match]
    | none => []

lemma minByKey_ne_none (f : α → Nat) (l : List α) (h : l ≠ []) :
    minByKey f l ≠ none := by
  cases l with
  | nil => exact absurd rfl h
  | cons a as =>
    cases hm : minByKey f as with
    | none => simp [minByKey, hm]
    | some y => by_cases hle : f a ≤ f y <;> simp [minByKey, hm, hle]

lemma minByKey_mem (f : α → Nat) (l : List α) (x : α)
    (h : minByKey f l = some x) : x ∈ l := by
  induction l generalizing x with
  | nil => simp [minByKey] at h
  | cons a as ih =>
    cases hm : minByKey f as with
    | none =>
      simp only [minByKey, hm, Option.some.injEq] at h
      subst h
      exact List.mem_cons_self a as
    | some y =>
      by_cases hle : f a ≤ f y
      · simp only [minByKey, hm, if_pos hle, Option.some.injEq] at h
        subst h
        exact List.mem_cons_self a as
      · simp only [minByKey, hm, if_neg hle, Option.some.injEq] at h
        subst h
        exact List.mem_cons_of_mem a (ih y hm)

lemma minByKey_le (f : α → Nat) (l : List α) (x : α)
    (h : minByKey f l = some x) : ∀ y ∈ l, f x ≤ f y := by
  induction l generalizing x with
  | nil => simp [minByKey] at h
  | cons a as ih =>
    cases hm : minByKey f as with
    | none =>
      simp only [minByKey, hm, Option.some.injEq] at h
      subst h
      intro y hy
      rcases List.mem_cons.mp hy with rfl | hy'
      · exact le_refl _
      · exfalso
        cases as with
        | nil => simp at hy'
        | cons b bs => exact minByKey_ne_none f (b :: bs) (List.cons_ne_nil b bs) hm
    | some z =>
      by_cases hle : f a ≤ f z
      · simp only [minByKey, hm, if_pos hle, Option.some.injEq] at h
        subst h
        intro y hy
        rcases List.mem_cons.mp hy with rfl | hy'
        · exact le_refl _
        · exact hle.trans (ih z hm y hy')
      · simp only [minByKey, hm, if_neg hle, Option.some.injEq] at h
        subst h
        intro y hy
        rcases List.mem_cons.mp hy with rfl | hy'
        · exact le_of_lt (lt_of_not_le hle)
        · exact ih z hm y hy'

lemma distance_empty_left (s : String) : distance "" s = s.length := by
  show levFuel ("".length + s.length) [] s.data = s.length
  show levFuel (0 + s.data.length) [] s.data = s.data.length
  rw [Nat.zero_add]
  cases hs : s.data with
  | nil => rfl
  | cons c cs => rfl

/-- The `"Give (Donner)"` element of the spec's nearest-neighbor example. -/
def giveDonnerExampleElement : SyntaxElement :=
  { id := "give", provider := { name := "Skript-MC", token := some "key" },
    name := "Give (Donner)", description := "gives items",
    patterns := ["give %items% to %players%"], examples := some ["give"],
    required_addon := some "Skript", required_addon_version := none,
    required_minecraft_version := none, type := SyntaxType.EFFECT,
    required_plugins := some [], return_type := none, event_values := none,
    cancellable := none, link := "" }

/-- A corpus element whose name carries a parenthetical close to the query. -/
def zzWaiExampleElement : SyntaxElement :=
  { id := "zz", provider := { name := "Skript-MC", token := some "key" },
    name := "zz (wai)", description := "", patterns := ["zz"],
    examples := some [], required_addon := some "Skript",
    required_addon_version := none, required_minecraft_version := none,
    type := SyntaxType.EFFECT, required_plugins := some [],
    return_type := none, event_values := none, cancellable := none,
    link := "" }

/-- C6 counterexample.  For the corpus `["zz (wai)", "wait"]` and query
`"wait"`, the claim's distance (name with the optional parenthetical stripped)
gives the exact-name element `"wait"` distance 0 and so predicts it as the
single result, but the code compares a parenthetical-free name against the
*empty string* (distance 4 = the query's length) and returns the `"zz (wai)"`
element (distance 1 via `"wai"`) instead. -/
theorem skriptMc_distance_claim_counterexample :
    skriptMcPerformSearch [zzWaiExampleElement, waitExampleElement] "wait" =
      [zzWaiExampleElement] ∧
    specMcPerformSearch [zzWaiExampleElement, waitExampleElement] "wait" =
      [waitExampleElement] ∧
    zzWaiExampleElement ≠ waitExampleElement := by
  refine ⟨by rfl, by rfl, by decide⟩

/-- C6 amended.  Empty query → empty result; empty corpus → empty result; at
most one element is returned; for a non-empty query over a non-empty corpus
the single result is a corpus element of globally smallest distance, where the
distance of a candidate whose name matches `english (french)` is the smaller
of the edit distances of the two parts against the query (case-insensitively)
— but a candidate whose name has no such parenthetical form is compared
against the empty string for both parts, so its distance is the query's
length, not the distance of its name.  The `"Give (Donner)"` entry still
matches query `"donner"` with distance 0 via the parenthetical name. -/
theorem skriptMc_nearest_neighbor_amended (syntaxes : List SyntaxElement)
    (query : String) :
    (query = "" → skriptMcPerformSearch syntaxes query = []) ∧
    (syntaxes = [] → skriptMcPerformSearch syntaxes query = []) ∧
    (skriptMcPerformSearch syntaxes query).length ≤ 1 ∧
    (query ≠ "" → syntaxes ≠ [] →
      ∃ best, skriptMcPerformSearch syntaxes query = [best] ∧
        best ∈ syntaxes ∧
        ∀ e ∈ syntaxes,
          skriptMcLevenshteinKey query best ≤ skriptMcLevenshteinKey query e) ∧
    (∀ e : SyntaxElement, skriptMcNameMatch e.name = none →
      skriptMcLevenshteinKey query e = (pyLower query).length) ∧
    (∀ (e : SyntaxElement) (p : String × String),
      skriptMcNameMatch e.name = some p →
      skriptMcLevenshteinKey query e =
        min (distance (pyLower p.1) (pyLower query))
          (distance (pyLower p.2) (pyLower query))) ∧
    skriptMcNameMatch "Give (Donner)" = some ("Give", "Donner") ∧
    skriptMcLevenshteinKey "donner" giveDonnerExampleElement = 0 ∧
    skriptMcPerformSearch [giveDonnerExampleElement] "donner" =
      [giveDonnerExampleElement] := by
  refine ⟨?_, ?_, ?_, ?_, ?_, ?_, by rfl, by rfl, by rfl⟩
  · intro h
    simp [skriptMcPerformSearch, h]
  · intro h
    subst h
    by_cases hq : query = "" <;> simp [skriptMcPerformSearch, hq, minByKey]
  · by_cases hq : query = ""
    · simp [skriptMcPerformSearch, hq]
    · rw [skriptMcPerformSearch, if_neg hq]
      cases minByKey (skriptMcLevenshteinKey query) syntaxes <;> simp
  · intro hq hne
    rw [skriptMcPerformSearch, if_neg hq]
    cases hm : minByKey (skriptMcLevenshteinKey query) syntaxes with
    | none => exact absurd hm (minByKey_ne_none _ _ hne)
    | some best =>
      exact ⟨best, rfl, minByKey_mem _ _ _ hm, minByKey_le _ _ _ hm⟩
  · intro e h
    rw [skriptMcLevenshteinKey]
    rw [h]
    show min (distance "" (pyLower query)) (distance "" (pyLower query)) =
      (pyLower query).length
    rw [min_self, distance_empty_left]
  · intro e p h
    rw [skriptMcLevenshteinKey, h]

/-! ## Category mapping (C8) -/

/-- Python slicing `s[:len(s)-1]`: drop the last character (identity on the
empty string, whose `s[:-1]` is also empty). -/
def pyDropLast (s : String) : String :=
  String.mk (s.data.take (s.data.length - 1))

/-- `SkriptHubDocumentationProvider._compute_type`: `"type"` → `CLASSINFO`,
otherwise the enum lookup `SyntaxType[syntax_type.upper()]` (`none` models the
`KeyError` of an unmapped category). -/
def skriptHubComputeType (syntax_type : String) : Option SyntaxType :=
  if syntax_type = "type" then some SyntaxType.CLASSINFO
  else syntaxTypeOfName (pyUpper syntax_type)

/-- `SkUnityDocumentationProvider._compute_type` on `element["doc"]`:
`"types"`/`"classes"` → `CLASSINFO`, `"expression"` → `EXPRESSION`, otherwise
drop the trailing plural `s` and look the uppercased name up. -/
def skUnityComputeType (doc : String) : Option SyntaxType :=
  if doc = "types" ∨ doc = "classes" then some SyntaxType.CLASSINFO
  else if doc = "expression" then some SyntaxType.EXPRESSION
  else syntaxTypeOfName (pyUpper (pyDropLast doc))

/-- `SkriptMcDocumentationProvider._compute_type` on `element["category"]`:
the special-case table (`"types"`, `"evenements"`, `"fonctions"`, `"effets"`),
then the drop-last-character-and-uppercase fallback lookup. -/
def skriptMcComputeType (category : String) : Option SyntaxType :=
  if category = "types" then some SyntaxType.CLASSINFO
  else if category = "evenements" then some SyntaxType.EVENT
  else if category = "fonctions" then some SyntaxType.FUNCTION
  else if category = "effets" then some SyntaxType.EFFECT
  else syntaxTypeOfName (pyUpper (pyDropLast category))

/-! ## Skript Hub row conversion (C8, C10) -/

/-- A raw Skript Hub API row, with exactly the fields
`SkriptHubDocumentationProvider._convert_element` reads; `required_plugins`
holds the `"name"` entries of the row's plugin objects. -/
structure SkriptHubRawElement where
  id : String
  title : String
  description : String
  syntax_pattern : String
  addon : String
  compatible_addon_version : Option String
  compatible_minecraft_version : Option String
  syntax_type : String
  required_plugins : List String
  return_type : Option String
  event_values : Option String
  event_cancellable : Option Bool
  link : String
deriving DecidableEq, Repr

/-- `SkriptHubDocumentationProvider._compute_event_values`: split on `", "`,
strip each piece, keep the non-empty ones. -/
def skriptHubComputeEventValues (event_values : Option String) :
    Option (List String) :=
  match event_values with
  | some s =>
      some (((pySplit s ", ").map pyStrip).filter (fun piece => !(piece == "")))
  | none => none

/-- `SkriptHubDocumentationProvider._convert_element`.  `unescape` is
`html.unescape` (kept abstract: its definition is irrelevant to the claims,
which hold for every unescape function); the conversion fails (`none`, the
propagating `KeyError`) exactly when the category is unmapped. -/
def skriptHubConvertElement (unescape : String → String) (self : ProviderRef)
    (element : SkriptHubRawElement) : Option SyntaxElement :=
  match skriptHubComputeType element.syntax_type with
  | none => none
  | some ty => some {
      id := element.id,
      provider := self,
      name := element.title,
      description := element.description,
      patterns := pySplit (unescape element.syntax_pattern) "\n",
      examples := none,
      required_addon := some element.addon,
      required_addon_version :=
        convert_addon_version element.compatible_addon_version,
      required_minecraft_version := element.compatible_minecraft_version,
      type := ty,
      required_plugins := some element.required_plugins,
      return_type := element.return_type,
      event_values := skriptHubComputeEventValues element.event_values,
      cancellable := element.event_cancellable,
      link := element.link }

/-- The `tuple(self._convert_element(element) for element in response.json())`
of `SkriptHubDocumentationProvider.perform_search`: one failing row fails the
whole search (the exception propagates), no row is dropped or defaulted. -/
def skriptHubConvertAll (unescape : String → String) (self : ProviderRef) :
    List SkriptHubRawElement → Option (List SyntaxElement)
  | [] => some []
  | row :: rows =>
    match skriptHubConvertElement unescape self row with
    | none => none
    | some e =>
      match skriptHubConvertAll unescape self rows with
      | none => none
      | some es => some (e :: es)

/-- C8 counterexample.  The claim's table does not hold in *every* adapter:
Skript Hub maps only `"type"` (its `"types"` and `"classes"` fall through to
the enum lookup and fail), skUnity maps only `"types"`/`"classes"` (its
`"type"` is sliced to `"typ"` and fails), Skript-MC maps only `"types"`. -/
theorem compute_type_counterexample :
    skriptHubComputeType "types" = none ∧
    skriptHubComputeType "classes" = none ∧
    skUnityComputeType "type" = none ∧
    skriptMcComputeType "type" = none ∧
    skriptMcComputeType "classes" = none ∧
    (none : Option SyntaxType) ≠ some SyntaxType.CLASSINFO := by
  refine ⟨by rfl, by rfl, by rfl, by rfl, by rfl, by decide⟩

/-- C8 amended.  Per adapter: Skript Hub maps `"type"` → `CLASSINFO`, skUnity
maps `"types"` and `"classes"` → `CLASSINFO`, Skript-MC maps `"types"` →
`CLASSINFO`; in each adapter a category with no mapping (after the
special-case table and the singularize-and-uppercase fallback) makes the
conversion fail with an error (`none`), which fails the whole row conversion
and the whole search — never a silent default or a dropped row. -/
theorem compute_type_amended (unescape : String → String) (self : ProviderRef) :
    skriptHubComputeType "type" = some SyntaxType.CLASSINFO ∧
    skUnityComputeType "types" = some SyntaxType.CLASSINFO ∧
    skUnityComputeType "classes" = some SyntaxType.CLASSINFO ∧
    skriptMcComputeType "types" = some SyntaxType.CLASSINFO ∧
    skriptHubComputeType "condition" = some SyntaxType.CONDITION ∧
    skUnityComputeType "conditions" = some SyntaxType.CONDITION ∧
    skriptMcComputeType "evenements" = some SyntaxType.EVENT ∧
    skriptHubComputeType "gizmo" = none ∧
    skUnityComputeType "gizmos" = none ∧
    skriptMcComputeType "gizmos" = none ∧
    (∀ s : String, s ≠ "type" →
      skriptHubComputeType s = syntaxTypeOfName (pyUpper s)) ∧
    (∀ element : SkriptHubRawElement,
      skriptHubComputeType element.syntax_type = none →
      skriptHubConvertElement unescape self element = none) ∧
    (∀ rows : List SkriptHubRawElement,
      (∃ row ∈ rows, skriptHubConvertElement unescape self row = none) →
      skriptHubConvertAll unescape self rows = none) := by
  refine ⟨by rfl, by rfl, by rfl, by rfl, by rfl, by rfl, by rfl, by rfl,
    by rfl, by rfl, ?_, ?_, ?_⟩
  · intro s hs
    rw [skriptHubComputeType, if_neg hs]
  · intro element h
    rw [skriptHubConvertElement, h]
  · intro rows hex
    induction rows with
    | nil => simp at hex
    | cons row rows ih =>
      obtain ⟨r, hr, hnone⟩ := hex
      rcases List.mem_cons.mp hr with rfl | hr'
      · rw [skriptHubConvertAll, hnone]
      · rw [skriptHubConvertAll]
        cases skriptHubConvertElement unescape self row with
        | none => rfl
        | some e =>
          rw [ih ⟨r, hr', hnone⟩]

/-! ## Enrichment ownership check (C9) -/

/-- `DocumentationProvider.prepare_element_for_display`, the base-class
default (inherited by `CombinedDocumentationProvider`): a no-op — no check,
no request, no mutation. -/
def basePrepareElementForDisplay (_self : ProviderRef)
    (element : SyntaxElement) : Except String (SyntaxElement × Bool) :=
  Except.ok (element, false)

/-- `SkriptHubDocumentationProvider.prepare_element_for_display`.  The check
compares provider *names* (`element.provider.name != self.name`); on mismatch
it raises (`.error`) before any request, leaving `examples` untouched.
Otherwise, when `examples` is `None`, one request is issued
(`fetched_examples` is the would-be response) and `examples` is filled; when
`examples` is already populated nothing happens.  The returned flag records
whether the request was issued.  The same name-based check opens the
`prepare_element_for_display` of every concrete adapter class. -/
def skriptHubPrepareElementForDisplay (self : ProviderRef)
    (fetched_examples : List String) (element : SyntaxElement) :
    Except String (SyntaxElement × Bool) :=
  if element.provider.name ≠ self.name then
    Except.error ("element was provided by " ++ element.provider.name ++
      ", but must be provided by " ++ self.name)
  else if element.examples = none then
    Except.ok ({ element with examples := some fetched_examples }, true)
  else
    Except.ok (element, false)

/-- A Skript Hub provider instance with one API token. -/
def skriptHubInstanceA : ProviderRef :=
  { name := "Skript Hub", token := some "token-a" }

/-- A *different* Skript Hub provider instance (another API token); its `name`
property is the same class constant `"Skript Hub"`. -/
def skriptHubInstanceB : ProviderRef :=
  { name := "Skript Hub", token := some "token-b" }

/-- An element owned by `skriptHubInstanceA`, examples not yet loaded. -/
def hubOwnedExampleElement : SyntaxElement :=
  { id := "1", provider := skriptHubInstanceA, name := "on join",
    description := "join event", patterns := ["on join"], examples := none,
    required_addon := some "Skript", required_addon_version := none,
    required_minecraft_version := none, type := SyntaxType.EVENT,
    required_plugins := some [], return_type := none,
    event_values := some ["player"], cancellable := some false, link := "" }

/-- C9 counterexample.  The ownership check compares provider *names*, not
instances: invoking instance B's enrichment on an element owned by the
distinct instance A (same class, different token) raises no ownership error —
it proceeds, issues the request and fills `examples`. -/
theorem ownership_check_counterexample :
    skriptHubInstanceA ≠ skriptHubInstanceB ∧
    skriptHubPrepareElementForDisplay skriptHubInstanceB ["example code"]
        hubOwnedExampleElement =
      Except.ok ({ hubOwnedExampleElement with examples := some ["example code"] },
        true) := by
  refine ⟨by decide, by rfl⟩

/-- C9 amended.  Enrichment fails with the ownership error exactly when the
element's provider's *name* differs from the invoked provider's name (two
distinct instances sharing a name pass the check); on failure it returns the
error before any request, leaving `examples` unmodified; on a name match it
fills an unloaded `examples` with one request, and is a no-op on a populated
one.  The base-class default (inherited by the combined provider) checks
nothing at all. -/
theorem ownership_check_amended (self : ProviderRef) (element : SyntaxElement)
    (fetched_examples : List String) :
    (element.provider.name ≠ self.name →
      skriptHubPrepareElementForDisplay self fetched_examples element =
        Except.error ("element was provided by " ++ element.provider.name ++
          ", but must be provided by " ++ self.name)) ∧
    (element.provider.name = self.name → element.examples = none →
      skriptHubPrepareElementForDisplay self fetched_examples element =
        Except.ok ({ element with examples := some fetched_examples }, true)) ∧
    (element.provider.name = self.name → element.examples ≠ none →
      skriptHubPrepareElementForDisplay self fetched_examples element =
        Except.ok (element, false)) ∧
    basePrepareElementForDisplay self element = Except.ok (element, false) := by
  refine ⟨?_, ?_, ?_, rfl⟩
  · intro h
    rw [skriptHubPrepareElementForDisplay, if_pos h]
  · intro h hex
    rw [skriptHubPrepareElementForDisplay, if_neg (by simp [h]), if_pos hex]
  · intro h hex
    rw [skriptHubPrepareElementForDisplay, if_neg (by simp [h]), if_neg hex]

/-! ## SkriptLang row conversion (C10) -/

/-- A raw SkriptLang `docs.json` entry, with exactly the fields
`SkriptLangDocumentationProvider._convert_element` reads.  Keys read with
`.get(..., default)` or guarded by `in` are `Option`s; `since` may be a
string or a list of strings in the JSON. -/
structure SkriptLangRawElement where
  id : String
  name : String
  description : Option (List String)
  patterns : Option (List String)
  examples : Option (List String)
  since : Option (String ⊕ List String)
  return_type : Option String
deriving DecidableEq, Repr

/-- `SkriptLangDocumentationProvider._convert_element`.  `unescape` is
`html.unescape` and `quote_plus` is `urllib.parse.quote_plus`, both kept
abstract (the claims hold for every choice).  Blank patterns are filtered
out — so the `patterns` of the constructed element *can* be empty. -/
def skriptLangConvertElement (unescape quote_plus : String → String)
    (self : ProviderRef) (type : SyntaxType)
    (element : SkriptLangRawElement) : SyntaxElement :=
  let examples : Option (List String) :=
    match element.examples with
    | none => none
    | some exs =>
      -- the joined-and-unescaped example text (`example` is a Lean keyword)
      let exampleText := unescape (pyJoin "\n" exs)
      if exampleText ≠ "" ∧ pyIsSpace exampleText = false then
        some [exampleText]
      else none
  let required_addon_version : Option String :=
    match element.since with
    | none => none
    | some (Sum.inl s) => some s
    | some (Sum.inr l) => some (pyJoin ", " l)
  { id := element.id,
    provider := self,
    name := element.name,
    description := pyJoin "\n" (element.description.getD []),
    patterns := (element.patterns.getD []).filter
      (fun pattern => !(pattern == "") && !(pyIsSpace pattern)),
    examples := examples,
    required_addon := some "Skript",
    required_addon_version := required_addon_version,
    required_minecraft_version := none,
    type := type,
    required_plugins := none,
    return_type := element.return_type,
    event_values := none,
    cancellable := none,
    link := "https://docs.skriptlang.org/docs.html?search=#" ++
      quote_plus element.id }

/-- A raw SkriptLang row whose patterns are all blank. -/
def patternlessRawElement : SkriptLangRawElement :=
  { id := "x", name := "x", description := none, patterns := some ["", "   "],
    examples := none, since := none, return_type := none }

lemma pySplitGo_ne_nil (sep : List Char) (l : List Char) (k : Nat)
    (cur : List Char) : pySplitGo sep l k cur ≠ [] := by
  induction l generalizing k cur with
  | nil => simp [pySplitGo]
  | cons c cs ih =>
    cases k with
    | zero =>
      rw [pySplitGo]
      by_cases h : startsWithChars sep (c :: cs) = true
      · simp [h]
      · simp only [Bool.not_eq_true] at h
        simp only [h, Bool.false_eq_true, if_false]
        exact ih 0 (c :: cur)
    | succ k => exact ih k cur

lemma pySplit_ne_nil (s sep : String) : pySplit s sep ≠ [] := by
  unfold pySplit
  intro h
  exact pySplitGo_ne_nil sep.data s.data 0 [] (List.map_eq_nil_iff.mp h)

/-- C10 counterexample.  In the SkriptLang adapter a row whose patterns are
all blank (here `["", "   "]`) is accepted and converted, and the constructed
element's `patterns` sequence is empty. -/
theorem patterns_nonempty_counterexample :
    (skriptLangConvertElement (fun s => s) (fun s => s)
        { name := "SkriptLang", token := none } SyntaxType.EFFECT
        patternlessRawElement).patterns = [] := by
  rfl

/-- C10 amended.  In the Skript Hub adapter every accepted (successfully
converted) row yields a non-empty `patterns` sequence (`str.split` always
returns at least one piece; the skUnity and Skript-MC conversions split the
same way); in the SkriptLang adapter `patterns` is the blank-filtered pattern
list of the row, and it is empty exactly when the row has no non-blank
pattern — such a pattern-less row still yields an element. -/
theorem patterns_nonempty_amended (unescape quote_plus : String → String)
    (self : ProviderRef) (type : SyntaxType) :
    (∀ (element : SkriptHubRawElement) (e : SyntaxElement),
      skriptHubConvertElement unescape self element = some e →
      e.patterns ≠ []) ∧
    (∀ element : SkriptLangRawElement,
      (skriptLangConvertElement unescape quote_plus self type
          element).patterns =
        (element.patterns.getD []).filter
          (fun pattern => !(pattern == "") && !(pyIsSpace pattern))) ∧
    (∀ element : SkriptLangRawElement,
      ((skriptLangConvertElement unescape quote_plus self type
          element).patterns = [] ↔
        ∀ p ∈ element.patterns.getD [], p = "" ∨ pyIsSpace p = true)) := by
  refine ⟨?_, ?_, ?_⟩
  · intro element e h
    cases ht : skriptHubComputeType element.syntax_type with
    | none => rw [skriptHubConvertElement, ht] at h; exact absurd h (by simp)
    | some ty =>
      rw [skriptHubConvertElement, ht, Option.some.injEq] at h
      subst h
      exact pySplit_ne_nil _ _
  · intro element
    rfl
  · intro element
    rw [skriptLangConvertElement]
    simp only [List.filter_eq_nil_iff]
    constructor
    · intro h p hp
      have := h p hp
      by_cases hpe : p = ""
      · exact Or.inl hpe
      · right
        by_cases hps : pyIsSpace p = true
        · exact hps
        · exfalso
          apply this
          simp [hpe, hps]
    · intro h p hp
      rcases h p hp with rfl | hps
      · simp
      · simp [hps]

end SkriptDocBot
